import Mathlib

/-!
# Verification of the Strava activity extractor core

Shallow embedding of the repository's paginated fetch-and-normalize client:

* `fetchPages` embeds the `while True` page loop of
  `StravaExtractor.get_activities` (identical control flow in
  `strava_extractor.py`, `cutie-extractor.py` and `strava_gui.py`):
  per-page classification by HTTP status (401 auth, 429 rate limit,
  `raise_for_status` for other 4xx/5xx, empty body terminates), the
  truthiness-guarded `max_activities` cap, and the `except
  RequestException: break` transport-error handler.
* `extract_activity_data_compact` / `extract_activity_data_extended`
  embed the two fieldset variants of `extract_activity_data`, over a
  model of Python scalar values in which ill-typed arithmetic raises
  `TypeError`.
* `export_to_csv` embeds the CSV export, including its empty-input
  early return and the `csv.DictWriter` minimal-quoting encoding; a
  CSV reader state machine supports the round-trip property.

Machine integers do not overflow in the modelled code paths; numeric
values are modelled as `Int`/`Rat`.
-/

set_option maxRecDepth 8192

/-- One upstream answer to one page request: either a transport-level
success carrying an HTTP status code and a parsed JSON body (the list of
activity records), or a `requests.exceptions.RequestException` (connection
failure, timeout, malformed body). -/
inductive PageResponse (α : Type) where
  | status (code : Nat) (body : List α)
  | netError
deriving DecidableEq

/-- The tagged outcome of one whole fetch call, following the spec's
`FetchOutcome`. In the source, `ok`/`rateLimited`/`transientFailure` are
all rendered as the plain accumulated list and `authFailed` as
`None` (GUI variants) or `[]` (CLI variant). -/
inductive FetchOutcome (α : Type) where
  | ok (records : List α)
  | authFailed
  | rateLimited (records : List α)
  | transientFailure (records : List α)
deriving DecidableEq

/-- The records carried by an outcome; `authFailed` carries none. -/
def outcomeRecords : FetchOutcome α → List α
  | FetchOutcome.ok l => l
  | FetchOutcome.authFailed => []
  | FetchOutcome.rateLimited l => l
  | FetchOutcome.transientFailure l => l

/-- The concrete return value of `get_activities` in `strava_extractor.py`
(the CLI variant): auth failure returns `[]`, every other stop returns the
accumulated list. -/
def cliReturn : FetchOutcome α → List α
  | FetchOutcome.authFailed => []
  | o => outcomeRecords o

/-- The concrete return value of `get_activities` in `cutie-extractor.py`
and `strava_gui.py` (GUI variants): auth failure returns `None`, every
other stop returns the accumulated list. -/
def guiReturn : FetchOutcome α → Option (List α)
  | FetchOutcome.authFailed => Option.none
  | o => Option.some (outcomeRecords o)

/-- The `if max_activities and len(activities) >= max_activities:` guard.
Python truthiness: the cap is active only when `max_activities` is neither
`None` nor `0`. -/
def capHit (maxA : Option Nat) (len : Nat) : Bool :=
  match maxA with
  | Option.none => false
  | Option.some k => decide (k ≠ 0) && decide (k ≤ len)

/-- The page loop of `get_activities`, consuming the upstream's successive
page responses. Returns the classified outcome (`none` if the modelled
response stream ran out while the loop would still continue), the final
value of the local `activities` accumulator, and the number of page
requests issued. Per-page checks in source order: status 401, status 429,
`raise_for_status` (4xx/5xx), empty body, extend-then-cap. -/
def fetchPages (maxA : Option Nat) :
    List (PageResponse α) → List α → Option (FetchOutcome α) × List α × Nat
  | [], acc => (Option.none, acc, 0)
  | PageResponse.netError :: _, acc =>
      (Option.some (FetchOutcome.transientFailure acc), acc, 1)
  | PageResponse.status code body :: rest, acc =>
      if code = 401 then (Option.some FetchOutcome.authFailed, acc, 1)
      else if code = 429 then (Option.some (FetchOutcome.rateLimited acc), acc, 1)
      else if 400 ≤ code ∧ code < 600 then
        (Option.some (FetchOutcome.transientFailure acc), acc, 1)
      else if body.isEmpty then (Option.some (FetchOutcome.ok acc), acc, 1)
      else if capHit maxA (acc ++ body).length then
        (Option.some (FetchOutcome.ok ((acc ++ body).take (maxA.getD 0))),
          (acc ++ body).take (maxA.getD 0), 1)
      else
        ((fetchPages maxA rest (acc ++ body)).1,
          (fetchPages maxA rest (acc ++ body)).2.1,
          (fetchPages maxA rest (acc ++ body)).2.2 + 1)

theorem fetchPages_continue (maxA : Option Nat) (code : Nat) (body : List α)
    (rest : List (PageResponse α)) (acc : List α)
    (h401 : code ≠ 401) (h429 : code ≠ 429) (herr : ¬(400 ≤ code ∧ code < 600))
    (hempty : body ≠ []) (hcap : capHit maxA (acc ++ body).length = false) :
    fetchPages maxA (PageResponse.status code body :: rest) acc =
      ((fetchPages maxA rest (acc ++ body)).1,
        (fetchPages maxA rest (acc ++ body)).2.1,
        (fetchPages maxA rest (acc ++ body)).2.2 + 1) := by
  rw [fetchPages, if_neg h401, if_neg h429, if_neg herr,
    if_neg (by simpa [List.isEmpty_iff] using hempty)]
  simp only [hcap, Bool.false_eq_true, if_false]

theorem fetchPages_none_append (maxA : Option Nat) (xs ys : List (PageResponse α))
    (acc fin : List α) (n : Nat)
    (h : fetchPages maxA xs acc = (Option.none, fin, n)) :
    fetchPages maxA (xs ++ ys) acc =
      ((fetchPages maxA ys fin).1, (fetchPages maxA ys fin).2.1,
        n + (fetchPages maxA ys fin).2.2) := by
  induction xs generalizing acc n with
  | nil =>
    simp only [fetchPages, Prod.mk.injEq] at h
    obtain ⟨hfin, hn⟩ := h.2
    subst hfin; subst hn
    simp only [List.nil_append, Nat.zero_add]
  | cons x xs ih =>
    cases x with
    | netError => simp [fetchPages] at h
    | status code body =>
      by_cases h401 : code = 401
      · simp [fetchPages, h401] at h
      · by_cases h429 : code = 429
        · simp [fetchPages, h401, h429] at h
        · by_cases herr : 400 ≤ code ∧ code < 600
          · simp [fetchPages, h401, h429, herr] at h
          · by_cases hempty : body = []
            · simp [fetchPages, h401, h429, herr, hempty] at h
            · by_cases hcap : capHit maxA (acc ++ body).length
              · rw [fetchPages, if_neg h401, if_neg h429, if_neg herr,
                  if_neg (by simpa [List.isEmpty_iff] using hempty),
                  if_pos hcap] at h
                simp at h
              · rw [fetchPages_continue maxA code body xs acc h401 h429 herr hempty
                  (by simpa using hcap)] at h
                simp only [Prod.mk.injEq] at h
                obtain ⟨h1, h2, h3⟩ := h
                rw [List.cons_append,
                  fetchPages_continue maxA code body (xs ++ ys) acc h401 h429 herr hempty
                    (by simpa using hcap),
                  ih (acc ++ body) (fetchPages maxA xs (acc ++ body)).2.2
                    (by rw [← h1, ← h2])]
                simp only [Prod.mk.injEq, true_and]
                omega

theorem fetchPages_401 (maxA : Option Nat) (body : List α)
    (rest : List (PageResponse α)) (acc : List α) :
    fetchPages maxA (PageResponse.status 401 body :: rest) acc =
      (Option.some FetchOutcome.authFailed, acc, 1) := by
  rw [fetchPages, if_pos rfl]

theorem fetchPages_netError (maxA : Option Nat)
    (rest : List (PageResponse α)) (acc : List α) :
    fetchPages maxA (PageResponse.netError :: rest) acc =
      (Option.some (FetchOutcome.transientFailure acc), acc, 1) := by
  rw [fetchPages]

theorem fetchPages_200_empty (maxA : Option Nat)
    (rest : List (PageResponse α)) (acc : List α) :
    fetchPages maxA (PageResponse.status 200 [] :: rest) acc =
      (Option.some (FetchOutcome.ok acc), acc, 1) := by
  rw [fetchPages, if_neg (by omega), if_neg (by omega), if_neg (by omega)]
  simp

theorem fetchPages_200_cap (k : Nat) (body : List α)
    (rest : List (PageResponse α)) (acc : List α)
    (hk : 0 < k) (hbody : body ≠ []) (hreach : k ≤ (acc ++ body).length) :
    fetchPages (Option.some k) (PageResponse.status 200 body :: rest) acc =
      (Option.some (FetchOutcome.ok ((acc ++ body).take k)),
        (acc ++ body).take k, 1) := by
  have hcap : capHit (Option.some k) (acc ++ body).length = true := by
    simp only [capHit, Bool.and_eq_true, decide_eq_true_eq]
    exact ⟨by omega, hreach⟩
  rw [fetchPages, if_neg (by omega), if_neg (by omega), if_neg (by omega),
    if_neg (by simpa [List.isEmpty_iff] using hbody), if_pos hcap]
  simp

/-- C1: if any page response is an HTTP 401 — even after earlier pages
succeeded and accumulated records — `get_activities` stops at that page
(one request for it, none after) with the `AuthFailed` outcome, which
carries no records: the GUI variants return `None` and the CLI variant
returns `[]`, so all records accumulated in the call are discarded. -/
theorem fetch_auth_failure_discards (maxA : Option Nat)
    (pre rest : List (PageResponse α)) (b acc : List α) (n : Nat)
    (h : fetchPages maxA pre [] = (Option.none, acc, n)) :
    fetchPages maxA (pre ++ PageResponse.status 401 b :: rest) [] =
      (Option.some FetchOutcome.authFailed, acc, n + 1)
    ∧ outcomeRecords (FetchOutcome.authFailed : FetchOutcome α) = []
    ∧ guiReturn (FetchOutcome.authFailed : FetchOutcome α) = Option.none
    ∧ cliReturn (FetchOutcome.authFailed : FetchOutcome α) = [] := by
  refine ⟨?_, rfl, rfl, rfl⟩
  rw [fetchPages_none_append maxA pre _ [] acc n h, fetchPages_401]

theorem fetch_auth_failure_discards_witness :
    fetchPages Option.none
      ([PageResponse.status 200 [7]] ++ PageResponse.status 401 [] :: [])
      ([] : List Nat) =
      (Option.some FetchOutcome.authFailed, [7], 2)
    ∧ guiReturn (FetchOutcome.authFailed : FetchOutcome Nat) = Option.none := by
  have h := fetch_auth_failure_discards Option.none
    [PageResponse.status 200 [7]] [] [] [7] 1 (by decide)
  exact ⟨h.1, h.2.2.1⟩

/-- C2: with a positive cap `max_activities = k`, once a page's records
push the accumulated count to `k` or beyond, `get_activities` truncates
the accumulator to exactly `k` records (`activities[:max_activities]`),
returns them as the `Ok` outcome, and issues no request beyond that page
(in the 50-cap / 200-per-page example the cap already fires on page 1,
so no third request is ever issued). -/
theorem fetch_cap_truncates (k : Nat) (pre rest : List (PageResponse α))
    (p acc : List α) (n : Nat) (hk : 0 < k) (hp : p ≠ [])
    (h : fetchPages (Option.some k) pre [] = (Option.none, acc, n))
    (hreach : k ≤ (acc ++ p).length) :
    fetchPages (Option.some k) (pre ++ PageResponse.status 200 p :: rest) [] =
      (Option.some (FetchOutcome.ok ((acc ++ p).take k)), (acc ++ p).take k, n + 1)
    ∧ ((acc ++ p).take k).length = k := by
  constructor
  · rw [fetchPages_none_append _ pre _ [] acc n h,
      fetchPages_200_cap k p rest acc hk hp hreach]
  · rw [List.length_take]
    omega

theorem fetch_cap_truncates_witness :
    fetchPages (Option.some 50)
      ([] ++ PageResponse.status 200 (List.replicate 200 (0 : Nat)) ::
        [PageResponse.status 200 (List.replicate 200 (0 : Nat))]) [] =
      (Option.some (FetchOutcome.ok (([] ++ List.replicate 200 (0 : Nat)).take 50)),
        ([] ++ List.replicate 200 (0 : Nat)).take 50, 0 + 1)
    ∧ (([] ++ List.replicate 200 (0 : Nat)).take 50).length = 50 :=
  fetch_cap_truncates 50 [] [PageResponse.status 200 (List.replicate 200 (0 : Nat))]
    (List.replicate 200 (0 : Nat)) [] 0 (by decide) (by decide) (by decide) (by decide)

/-- C3: with no cap, a page returning zero records terminates the loop
normally: `get_activities` returns `Ok` with exactly the records
accumulated from the earlier pages, after one request for the empty page
and none after it. -/
theorem fetch_empty_page_terminates (pre rest : List (PageResponse α))
    (acc : List α) (n : Nat)
    (h : fetchPages Option.none pre [] = (Option.none, acc, n)) :
    fetchPages Option.none (pre ++ PageResponse.status 200 [] :: rest) [] =
      (Option.some (FetchOutcome.ok acc), acc, n + 1) := by
  rw [fetchPages_none_append _ pre _ [] acc n h, fetchPages_200_empty]

theorem fetch_empty_page_terminates_witness :
    fetchPages Option.none
      ([PageResponse.status 200 (List.replicate 200 (0 : Nat))] ++
        PageResponse.status 200 [] :: []) [] =
      (Option.some (FetchOutcome.ok (List.replicate 200 (0 : Nat))),
        List.replicate 200 (0 : Nat), 1 + 1) :=
  fetch_empty_page_terminates [PageResponse.status 200 (List.replicate 200 (0 : Nat))] []
    (List.replicate 200 (0 : Nat)) 1 (by decide)

/-- C7: a transport-level error on any page (`netError`: connection
failure, timeout, malformed body — `requests.exceptions.RequestException`)
makes `get_activities` stop at that page without retrying it: the
`except` handler breaks out of the loop, the call returns the
`TransientFailure` outcome carrying exactly the records accumulated from
prior pages, and the error is translated at the page boundary into a
normal return value rather than an uncaught fault. -/
theorem fetch_transient_error_partial (maxA : Option Nat)
    (pre rest : List (PageResponse α)) (acc : List α) (n : Nat)
    (h : fetchPages maxA pre [] = (Option.none, acc, n)) :
    fetchPages maxA (pre ++ PageResponse.netError :: rest) [] =
      (Option.some (FetchOutcome.transientFailure acc), acc, n + 1)
    ∧ outcomeRecords (FetchOutcome.transientFailure acc) = acc
    ∧ cliReturn (FetchOutcome.transientFailure acc) = acc
    ∧ guiReturn (FetchOutcome.transientFailure acc) = Option.some acc := by
  refine ⟨?_, rfl, rfl, rfl⟩
  rw [fetchPages_none_append maxA pre _ [] acc n h, fetchPages_netError]

theorem fetch_transient_error_partial_witness :
    fetchPages Option.none
      ([PageResponse.status 200 [5]] ++ PageResponse.netError :: []) ([] : List Nat) =
      (Option.some (FetchOutcome.transientFailure [5]), [5], 1 + 1)
    ∧ outcomeRecords (FetchOutcome.transientFailure [(5 : Nat)]) = [5] := by
  have h := fetch_transient_error_partial Option.none
    [PageResponse.status 200 [(5 : Nat)]] [] [5] 1 (by decide)
  exact ⟨h.1, h.2.1⟩

/-- C10: `max_activities = 0` behaves exactly like `None`: the guard
`if max_activities and len(activities) >= max_activities` is falsy for
`0`, so the cap check never fires and the fetch is identical to an
uncapped fetch on every response stream and accumulator — pagination
runs to natural exhaustion or error instead of returning zero records. -/
theorem fetch_zero_cap_is_uncapped (rs : List (PageResponse α)) (acc : List α) :
    fetchPages (Option.some 0) rs acc = fetchPages Option.none rs acc := by
  induction rs generalizing acc with
  | nil => rfl
  | cons x rs ih =>
    cases x with
    | netError => rfl
    | status code body =>
      have h0 : capHit (Option.some 0) (acc ++ body).length = false := by
        simp [capHit]
      have h1 : capHit Option.none (acc ++ body).length = false := rfl
      rw [fetchPages, fetchPages]
      simp only [h0, h1, Bool.false_eq_true, if_false]
      rw [ih (acc ++ body)]

/-- An exact integer fraction modelling a Python float. The modelled
pipeline's arithmetic (`/1000`, `/60`, `*3.6`, `round(·, 2)`) is exact on
these; `den` is positive in every value the model constructs. -/
structure PyFloat where
  num : Int
  den : Int
deriving DecidableEq

/-- The rational value of a modelled float, for value-level statements
about concrete results. -/
def fracVal (f : PyFloat) : Rat := (f.num : Rat) / (f.den : Rat)

/-- Model of a Python scalar value as stored in an activity dict. -/
inductive PyVal where
  | none
  | int (n : Int)
  | float (f : PyFloat)
  | str (s : String)
  | bool (b : Bool)
deriving DecidableEq

/-- A Python `TypeError` raised by ill-typed arithmetic or slicing. -/
inductive PyErr where
  | typeError
deriving DecidableEq

/-- An upstream activity record: a string-keyed dict of scalars, any
subset of fields possibly absent. -/
abbrev ActivityRecord : Type := List (String × PyVal)

/-- A normalized row: field names with values, in output order. -/
abbrev NormalizedRow : Type := List (String × PyVal)

/-- `activity.get(k, d)`: the stored value when the key is present (even
when that stored value is `None`), otherwise the default. -/
def dictGet (a : ActivityRecord) (k : String) (d : PyVal) : PyVal :=
  match List.lookup k a with
  | Option.some v => v
  | Option.none => d

/-- Python truthiness of a scalar (`if value:`). -/
def pyTruthy : PyVal → Bool
  | PyVal.none => false
  | PyVal.int n => decide (n ≠ 0)
  | PyVal.float f => decide (f.num ≠ 0)
  | PyVal.str s => decide (s ≠ "")
  | PyVal.bool b => b

/-- Numeric view of a scalar: ints, floats and bools are numbers
(`True` counts as 1); `None` and strings are not. -/
def pyToFrac : PyVal → Option PyFloat
  | PyVal.int n => Option.some ⟨n, 1⟩
  | PyVal.float f => Option.some f
  | PyVal.bool b => Option.some ⟨if b then 1 else 0, 1⟩
  | _ => Option.none

/-- Python's round-half-to-even of `n / den` (for positive `den`). -/
def fracRoundHE (n den : Int) : Int :=
  if 2 * (n - n.fdiv den * den) < den then n.fdiv den
  else if den < 2 * (n - n.fdiv den * den) then n.fdiv den + 1
  else if n.fdiv den % 2 = 0 then n.fdiv den else n.fdiv den + 1

/-- `round(x, 2)` of a float: two decimal places, ties to even. -/
def round2 (f : PyFloat) : PyFloat := ⟨fracRoundHE (f.num * 100) f.den, 100⟩

/-- `round(value / d, 2)` for a positive integer literal `d`: Python true
division yields a float for numeric `value`; a present non-number (e.g.
`None` or a string) raises `TypeError`. -/
def divRound2 (v : PyVal) (d : Int) : Except PyErr PyVal :=
  match pyToFrac v with
  | Option.some f => Except.ok (PyVal.float (round2 ⟨f.num, f.den * d⟩))
  | Option.none => Except.error PyErr.typeError

/-- The guarded m/s → km/h conversion of the compact fieldset:
`if v: v = round(v * 3.6, 2)`. A falsy raw value (absent → default `0`,
or a present `0`/`0.0`/`False`/`""`/`None`) is left untouched; a truthy
non-number raises `TypeError`. -/
def convertSpeed (v : PyVal) : Except PyErr PyVal :=
  if pyTruthy v then
    match pyToFrac v with
    | Option.some f => Except.ok (PyVal.float (round2 ⟨f.num * 36, f.den * 10⟩))
    | Option.none => Except.error PyErr.typeError
  else Except.ok v

/-- `value[:10]`: string slicing; `TypeError` on non-strings (including a
present `None`). -/
def pySlice10 : PyVal → Except PyErr PyVal
  | PyVal.str s => Except.ok (PyVal.str (String.mk (s.data.take 10)))
  | _ => Except.error PyErr.typeError

/-- `StravaExtractor.extract_activity_data` of `cutie-extractor.py` and
`strava_gui.py` (the compact fieldset): the two guarded speed conversions
run first, then the dict literal's fields are evaluated in source order. -/
def extract_activity_data_compact (a : ActivityRecord) : Except PyErr NormalizedRow :=
  match convertSpeed (dictGet a "average_speed" (PyVal.int 0)) with
  | Except.error e => Except.error e
  | Except.ok avg =>
  match convertSpeed (dictGet a "max_speed" (PyVal.int 0)) with
  | Except.error e => Except.error e
  | Except.ok mx =>
  match divRound2 (dictGet a "distance" (PyVal.int 0)) 1000 with
  | Except.error e => Except.error e
  | Except.ok dist =>
  match divRound2 (dictGet a "moving_time" (PyVal.int 0)) 60 with
  | Except.error e => Except.error e
  | Except.ok mov =>
  Except.ok [
    ("id", dictGet a "id" PyVal.none),
    ("name", dictGet a "name" PyVal.none),
    ("distance", dist),
    ("moving_time", mov),
    ("elapsed_time", dictGet a "elapsed_time" PyVal.none),
    ("total_elevation_gain", dictGet a "total_elevation_gain" PyVal.none),
    ("start_date", dictGet a "start_date" (PyVal.str "")),
    ("average_speed", avg),
    ("max_speed", mx),
    ("average_temp", dictGet a "average_temp" PyVal.none),
    ("elev_high", dictGet a "elev_high" PyVal.none),
    ("elev_low", dictGet a "elev_low" PyVal.none),
    ("calories", dictGet a "calories" PyVal.none),
    ("pr_count", dictGet a "pr_count" PyVal.none)]

/-- `StravaExtractor.extract_activity_data` of `strava_extractor.py` (the
extended fieldset): `start_date[:10]` slicing plus the two
divide-and-round derivations; all other fields passed through. -/
def extract_activity_data_extended (a : ActivityRecord) : Except PyErr NormalizedRow :=
  match pySlice10 (dictGet a "start_date" (PyVal.str "")) with
  | Except.error e => Except.error e
  | Except.ok date =>
  match divRound2 (dictGet a "distance" (PyVal.int 0)) 1000 with
  | Except.error e => Except.error e
  | Except.ok dkm =>
  match divRound2 (dictGet a "moving_time" (PyVal.int 0)) 60 with
  | Except.error e => Except.error e
  | Except.ok mmin =>
  Except.ok [
    ("id", dictGet a "id" PyVal.none),
    ("name", dictGet a "name" PyVal.none),
    ("type", dictGet a "type" PyVal.none),
    ("date", date),
    ("start_time", dictGet a "start_date" (PyVal.str "")),
    ("distance_m", dictGet a "distance" PyVal.none),
    ("distance_km", dkm),
    ("moving_time_s", dictGet a "moving_time" PyVal.none),
    ("moving_time_min", mmin),
    ("elapsed_time_s", dictGet a "elapsed_time" PyVal.none),
    ("elevation_gain_m", dictGet a "total_elevation_gain" PyVal.none),
    ("average_speed_ms", dictGet a "average_speed" PyVal.none),
    ("max_speed_ms", dictGet a "max_speed" PyVal.none),
    ("average_hr", dictGet a "average_heartrate" PyVal.none),
    ("max_hr", dictGet a "max_heartrate" PyVal.none),
    ("calories", dictGet a "calories" PyVal.none),
    ("location", dictGet a "location_city" (PyVal.str "")),
    ("kudos", dictGet a "kudos_count" PyVal.none),
    ("commute", dictGet a "commute" PyVal.none),
    ("trainer", dictGet a "trainer" PyVal.none),
    ("manual", dictGet a "manual" PyVal.none)]

/-- The fixed column list of the compact fieldset, in output order. -/
def compactFieldNames : List String :=
  ["id", "name", "distance", "moving_time", "elapsed_time",
   "total_elevation_gain", "start_date", "average_speed", "max_speed",
   "average_temp", "elev_high", "elev_low", "calories", "pr_count"]

/-- The fixed column list of the extended fieldset, in output order. -/
def extendedFieldNames : List String :=
  ["id", "name", "type", "date", "start_time", "distance_m", "distance_km",
   "moving_time_s", "moving_time_min", "elapsed_time_s", "elevation_gain_m",
   "average_speed_ms", "max_speed_ms", "average_hr", "max_hr", "calories",
   "location", "kudos", "commute", "trainer", "manual"]

instance {ε σ : Type} [DecidableEq ε] [DecidableEq σ] : DecidableEq (Except ε σ) := fun x y =>
  match x, y with
  | Except.error e, Except.error f =>
    match decEq e f with
    | isTrue h => isTrue (h ▸ rfl)
    | isFalse h => isFalse (fun hh => h (by cases hh; rfl))
  | Except.error _, Except.ok _ => isFalse (fun h => Except.noConfusion h)
  | Except.ok _, Except.error _ => isFalse (fun h => Except.noConfusion h)
  | Except.ok a, Except.ok b =>
    match decEq a b with
    | isTrue h => isTrue (h ▸ rfl)
    | isFalse h => isFalse (fun hh => h (by cases hh; rfl))

example : extract_activity_data_compact [("distance", PyVal.none)] =
    Except.error PyErr.typeError := by decide

example : convertSpeed (PyVal.float ⟨5, 1⟩) =
    Except.ok (PyVal.float ⟨1800, 100⟩) := by decide

example : fracVal ⟨1800, 100⟩ = 18 := by norm_num [fracVal]

example : divRound2 (PyVal.int 10234) 1000 =
    Except.ok (PyVal.float ⟨1023, 100⟩) := by decide

example : fracRoundHE 250 100 = 2 ∧ fracRoundHE 350 100 = 4 ∧
    fracRoundHE (-250) 100 = -2 := by decide

theorem extract_compact_inv (a : ActivityRecord) (row : NormalizedRow)
    (h : extract_activity_data_compact a = Except.ok row) :
    ∃ avg mx dist mov,
      convertSpeed (dictGet a "average_speed" (PyVal.int 0)) = Except.ok avg
      ∧ convertSpeed (dictGet a "max_speed" (PyVal.int 0)) = Except.ok mx
      ∧ divRound2 (dictGet a "distance" (PyVal.int 0)) 1000 = Except.ok dist
      ∧ divRound2 (dictGet a "moving_time" (PyVal.int 0)) 60 = Except.ok mov
      ∧ row = [
          ("id", dictGet a "id" PyVal.none),
          ("name", dictGet a "name" PyVal.none),
          ("distance", dist),
          ("moving_time", mov),
          ("elapsed_time", dictGet a "elapsed_time" PyVal.none),
          ("total_elevation_gain", dictGet a "total_elevation_gain" PyVal.none),
          ("start_date", dictGet a "start_date" (PyVal.str "")),
          ("average_speed", avg),
          ("max_speed", mx),
          ("average_temp", dictGet a "average_temp" PyVal.none),
          ("elev_high", dictGet a "elev_high" PyVal.none),
          ("elev_low", dictGet a "elev_low" PyVal.none),
          ("calories", dictGet a "calories" PyVal.none),
          ("pr_count", dictGet a "pr_count" PyVal.none)] := by
  rw [extract_activity_data_compact] at h
  cases h1 : convertSpeed (dictGet a "average_speed" (PyVal.int 0)) with
  | error e => rw [h1] at h; exact absurd h (by simp)
  | ok avg =>
  rw [h1] at h
  cases h2 : convertSpeed (dictGet a "max_speed" (PyVal.int 0)) with
  | error e => rw [h2] at h; exact absurd h (by simp)
  | ok mx =>
  rw [h2] at h
  cases h3 : divRound2 (dictGet a "distance" (PyVal.int 0)) 1000 with
  | error e => rw [h3] at h; exact absurd h (by simp)
  | ok dist =>
  rw [h3] at h
  cases h4 : divRound2 (dictGet a "moving_time" (PyVal.int 0)) 60 with
  | error e => rw [h4] at h; exact absurd h (by simp)
  | ok mov =>
  rw [h4] at h
  simp only [Except.ok.injEq] at h
  exact ⟨avg, mx, dist, mov, rfl, rfl, rfl, rfl, h.symm⟩

theorem extract_extended_inv (a : ActivityRecord) (row : NormalizedRow)
    (h : extract_activity_data_extended a = Except.ok row) :
    ∃ date dkm mmin,
      pySlice10 (dictGet a "start_date" (PyVal.str "")) = Except.ok date
      ∧ divRound2 (dictGet a "distance" (PyVal.int 0)) 1000 = Except.ok dkm
      ∧ divRound2 (dictGet a "moving_time" (PyVal.int 0)) 60 = Except.ok mmin
      ∧ row = [
          ("id", dictGet a "id" PyVal.none),
          ("name", dictGet a "name" PyVal.none),
          ("type", dictGet a "type" PyVal.none),
          ("date", date),
          ("start_time", dictGet a "start_date" (PyVal.str "")),
          ("distance_m", dictGet a "distance" PyVal.none),
          ("distance_km", dkm),
          ("moving_time_s", dictGet a "moving_time" PyVal.none),
          ("moving_time_min", mmin),
          ("elapsed_time_s", dictGet a "elapsed_time" PyVal.none),
          ("elevation_gain_m", dictGet a "total_elevation_gain" PyVal.none),
          ("average_speed_ms", dictGet a "average_speed" PyVal.none),
          ("max_speed_ms", dictGet a "max_speed" PyVal.none),
          ("average_hr", dictGet a "average_heartrate" PyVal.none),
          ("max_hr", dictGet a "max_heartrate" PyVal.none),
          ("calories", dictGet a "calories" PyVal.none),
          ("location", dictGet a "location_city" (PyVal.str "")),
          ("kudos", dictGet a "kudos_count" PyVal.none),
          ("commute", dictGet a "commute" PyVal.none),
          ("trainer", dictGet a "trainer" PyVal.none),
          ("manual", dictGet a "manual" PyVal.none)] := by
  rw [extract_activity_data_extended] at h
  cases h1 : pySlice10 (dictGet a "start_date" (PyVal.str "")) with
  | error e => rw [h1] at h; exact absurd h (by simp)
  | ok date =>
  rw [h1] at h
  cases h2 : divRound2 (dictGet a "distance" (PyVal.int 0)) 1000 with
  | error e => rw [h2] at h; exact absurd h (by simp)
  | ok dkm =>
  rw [h2] at h
  cases h3 : divRound2 (dictGet a "moving_time" (PyVal.int 0)) 60 with
  | error e => rw [h3] at h; exact absurd h (by simp)
  | ok mmin =>
  rw [h3] at h
  simp only [Except.ok.injEq] at h
  exact ⟨date, dkm, mmin, rfl, rfl, rfl, h.symm⟩

/-- A scalar acceptable to Python numeric arithmetic (int, float, bool). -/
def isNumeric (v : PyVal) : Bool := (pyToFrac v).isSome

/-- Typing precondition under which the compact normalizer cannot raise:
the four fields it feeds to arithmetic are numbers whenever used (the
speeds only when truthy, since a falsy value skips the conversion). -/
def WellTypedCompact (a : ActivityRecord) : Prop :=
  (pyTruthy (dictGet a "average_speed" (PyVal.int 0)) = true →
    isNumeric (dictGet a "average_speed" (PyVal.int 0)) = true)
  ∧ (pyTruthy (dictGet a "max_speed" (PyVal.int 0)) = true →
    isNumeric (dictGet a "max_speed" (PyVal.int 0)) = true)
  ∧ isNumeric (dictGet a "distance" (PyVal.int 0)) = true
  ∧ isNumeric (dictGet a "moving_time" (PyVal.int 0)) = true

/-- Typing precondition under which the extended normalizer cannot
raise: `start_date` is a string when present, and the two divided fields
are numbers. -/
def WellTypedExtended (a : ActivityRecord) : Prop :=
  (∃ s, dictGet a "start_date" (PyVal.str "") = PyVal.str s)
  ∧ isNumeric (dictGet a "distance" (PyVal.int 0)) = true
  ∧ isNumeric (dictGet a "moving_time" (PyVal.int 0)) = true

theorem convertSpeed_ok (v : PyVal)
    (h : pyTruthy v = true → isNumeric v = true) :
    ∃ w, convertSpeed v = Except.ok w := by
  by_cases ht : pyTruthy v = true
  · obtain ⟨f, hf⟩ := Option.isSome_iff_exists.mp (h ht)
    exact ⟨_, by rw [convertSpeed, if_pos ht, hf]⟩
  · exact ⟨v, by rw [convertSpeed, if_neg ht]⟩

theorem divRound2_ok (v : PyVal) (d : Int) (h : isNumeric v = true) :
    ∃ w, divRound2 v d = Except.ok w := by
  obtain ⟨f, hf⟩ := Option.isSome_iff_exists.mp h
  exact ⟨_, by rw [divRound2, hf]⟩

theorem pySlice10_ok (v : PyVal) (h : ∃ s, v = PyVal.str s) :
    ∃ w, pySlice10 v = Except.ok w := by
  obtain ⟨s, hs⟩ := h
  exact ⟨_, by rw [hs, pySlice10]⟩

/-- C4 counterexample: `extract_activity_data` is not total over
heterogeneous records: a record whose `distance` field is present but
bound to `null` makes `round(None / 1000, 2)` raise `TypeError` in both
fieldset variants, so `normalize` does propagate an error for some
ActivityRecord over numbers/strings/booleans/null. -/
theorem normalize_raises_on_null_distance :
    extract_activity_data_compact [("distance", PyVal.none)] =
      Except.error PyErr.typeError
    ∧ extract_activity_data_extended [("distance", PyVal.none)] =
      Except.error PyErr.typeError := by decide

/-- C4 (amended): `normalize` is a pure total function on every record
whose present fields are well-typed for the arithmetic applied to them —
in particular, absent fields never cause a failure (they become the
defaults); only a present ill-typed value (e.g. a null or string
`distance`) raises. -/
theorem normalize_total_on_welltyped (a : ActivityRecord)
    (hc : WellTypedCompact a) (he : WellTypedExtended a) :
    (∃ row, extract_activity_data_compact a = Except.ok row)
    ∧ (∃ row, extract_activity_data_extended a = Except.ok row) := by
  obtain ⟨h1, h2, h3, h4⟩ := hc
  obtain ⟨g1, g2, g3⟩ := he
  obtain ⟨avg, havg⟩ := convertSpeed_ok _ h1
  obtain ⟨mx, hmx⟩ := convertSpeed_ok _ h2
  obtain ⟨dist, hdist⟩ := divRound2_ok _ 1000 h3
  obtain ⟨mov, hmov⟩ := divRound2_ok _ 60 h4
  obtain ⟨date, hdate⟩ := pySlice10_ok _ g1
  obtain ⟨dkm, hdkm⟩ := divRound2_ok _ 1000 g2
  obtain ⟨mmin, hmmin⟩ := divRound2_ok _ 60 g3
  constructor
  · exact ⟨_, by rw [extract_activity_data_compact, havg, hmx, hdist, hmov]⟩
  · exact ⟨_, by rw [extract_activity_data_extended, hdate, hdkm, hmmin]⟩

theorem normalize_total_on_welltyped_witness :
    (∃ row, extract_activity_data_compact [] = Except.ok row)
    ∧ (∃ row, extract_activity_data_extended [] = Except.ok row) :=
  normalize_total_on_welltyped []
    ⟨by decide, by decide, by decide, by decide⟩
    ⟨⟨"", rfl⟩, by decide, by decide⟩

theorem dictGet_missing (a : ActivityRecord) (k : String) (d : PyVal)
    (h : List.lookup k a = Option.none) : dictGet a k d = d := by
  rw [dictGet, h]

/-- The compact row produced when every source field is absent. -/
def compactDefaultRow : NormalizedRow :=
  [("id", PyVal.none), ("name", PyVal.none),
   ("distance", PyVal.float ⟨0, 100⟩), ("moving_time", PyVal.float ⟨0, 100⟩),
   ("elapsed_time", PyVal.none), ("total_elevation_gain", PyVal.none),
   ("start_date", PyVal.str ""), ("average_speed", PyVal.int 0),
   ("max_speed", PyVal.int 0), ("average_temp", PyVal.none),
   ("elev_high", PyVal.none), ("elev_low", PyVal.none),
   ("calories", PyVal.none), ("pr_count", PyVal.none)]

/-- The extended row produced when every source field is absent. -/
def extendedDefaultRow : NormalizedRow :=
  [("id", PyVal.none), ("name", PyVal.none), ("type", PyVal.none),
   ("date", PyVal.str ""), ("start_time", PyVal.str ""),
   ("distance_m", PyVal.none), ("distance_km", PyVal.float ⟨0, 100⟩),
   ("moving_time_s", PyVal.none), ("moving_time_min", PyVal.float ⟨0, 100⟩),
   ("elapsed_time_s", PyVal.none), ("elevation_gain_m", PyVal.none),
   ("average_speed_ms", PyVal.none), ("max_speed_ms", PyVal.none),
   ("average_hr", PyVal.none), ("max_hr", PyVal.none),
   ("calories", PyVal.none), ("location", PyVal.str ""),
   ("kudos", PyVal.none), ("commute", PyVal.none), ("trainer", PyVal.none),
   ("manual", PyVal.none)]

/-- Compact-fieldset columns copied verbatim from the like-named source
field (absent source → `None` in the row). -/
def compactPassThrough : List String :=
  ["id", "name", "elapsed_time", "total_elevation_gain", "average_temp",
   "elev_high", "elev_low", "calories", "pr_count"]

/-- Extended-fieldset pass-through columns, paired with the source field
each copies (absent source → `None` in the row). -/
def extendedPassThrough : List (String × String) :=
  [("id", "id"), ("name", "name"), ("type", "type"),
   ("distance_m", "distance"), ("moving_time_s", "moving_time"),
   ("elapsed_time_s", "elapsed_time"),
   ("elevation_gain_m", "total_elevation_gain"),
   ("average_speed_ms", "average_speed"), ("max_speed_ms", "max_speed"),
   ("average_hr", "average_heartrate"), ("max_hr", "max_heartrate"),
   ("calories", "calories"), ("kudos", "kudos_count"),
   ("commute", "commute"), ("trainer", "trainer"), ("manual", "manual")]

/-- C5 counterexample: on the all-fields-missing record the compact
normalizer binds the `distance` column to the float `0.0` — a
substituted non-null, non-empty value — because the derivation
`round(activity.get("distance", 0) / 1000, 2)` runs on the default `0`;
so "missing → null/empty, never a substituted non-null value" fails. -/
theorem normalize_missing_distance_not_null :
    extract_activity_data_compact [] = Except.ok compactDefaultRow
    ∧ List.lookup "distance" compactDefaultRow =
        Option.some (PyVal.float ⟨0, 100⟩)
    ∧ PyVal.float ⟨0, 100⟩ ≠ PyVal.none
    ∧ PyVal.float ⟨0, 100⟩ ≠ PyVal.str "" := by decide

/-- C5 (amended): every successful normalize has the identical fixed
field-name list and order (no column is ever dropped), and a missing
source field is always present in the row bound to a fixed falsy
default: `None` for pass-through columns, `""` for the string-derived
columns, but the *numeric* falsy defaults for the derived columns —
float `0.0` for distance and moving-time, the raw int `0` for the
speeds — rather than null/empty. -/
theorem normalize_fixed_shape (a : ActivityRecord) (rowC rowE : NormalizedRow)
    (hc : extract_activity_data_compact a = Except.ok rowC)
    (he : extract_activity_data_extended a = Except.ok rowE) :
    rowC.map Prod.fst = compactFieldNames
    ∧ rowE.map Prod.fst = extendedFieldNames
    ∧ (∀ k ∈ compactPassThrough, List.lookup k a = Option.none →
        List.lookup k rowC = Option.some PyVal.none)
    ∧ (List.lookup "average_speed" a = Option.none →
        List.lookup "average_speed" rowC = Option.some (PyVal.int 0))
    ∧ (List.lookup "max_speed" a = Option.none →
        List.lookup "max_speed" rowC = Option.some (PyVal.int 0))
    ∧ (List.lookup "distance" a = Option.none →
        List.lookup "distance" rowC = Option.some (PyVal.float ⟨0, 100⟩))
    ∧ (List.lookup "moving_time" a = Option.none →
        List.lookup "moving_time" rowC = Option.some (PyVal.float ⟨0, 100⟩))
    ∧ (List.lookup "start_date" a = Option.none →
        List.lookup "start_date" rowC = Option.some (PyVal.str ""))
    ∧ (∀ p ∈ extendedPassThrough, List.lookup p.2 a = Option.none →
        List.lookup p.1 rowE = Option.some PyVal.none)
    ∧ (List.lookup "start_date" a = Option.none →
        List.lookup "date" rowE = Option.some (PyVal.str "")
        ∧ List.lookup "start_time" rowE = Option.some (PyVal.str ""))
    ∧ (List.lookup "location_city" a = Option.none →
        List.lookup "location" rowE = Option.some (PyVal.str ""))
    ∧ (List.lookup "distance" a = Option.none →
        List.lookup "distance_km" rowE = Option.some (PyVal.float ⟨0, 100⟩))
    ∧ (List.lookup "moving_time" a = Option.none →
        List.lookup "moving_time_min" rowE = Option.some (PyVal.float ⟨0, 100⟩)) := by
  obtain ⟨avg, mx, dist, mov, h1, h2, h3, h4, hrow⟩ := extract_compact_inv a rowC hc
  obtain ⟨date, dkm, mmin, g1, g2, g3, grow⟩ := extract_extended_inv a rowE he
  subst hrow
  subst grow
  refine ⟨rfl, rfl, ?_, ?_, ?_, ?_, ?_, ?_, ?_, ?_, ?_, ?_, ?_⟩
  · intro k hk
    fin_cases hk <;> (intro hm; simp [List.lookup, dictGet, hm])
  · intro hm
    rw [dictGet_missing a _ _ hm] at h1
    have hv : Except.ok (PyVal.int 0) = Except.ok avg := h1
    injection hv with hv
    subst hv
    simp [List.lookup]
  · intro hm
    rw [dictGet_missing a _ _ hm] at h2
    have hv : Except.ok (PyVal.int 0) = Except.ok mx := h2
    injection hv with hv
    subst hv
    simp [List.lookup]
  · intro hm
    rw [dictGet_missing a _ _ hm,
      show divRound2 (PyVal.int 0) 1000 =
        Except.ok (PyVal.float ⟨0, 100⟩) from by decide] at h3
    injection h3 with hv
    subst hv
    simp [List.lookup]
  · intro hm
    rw [dictGet_missing a _ _ hm,
      show divRound2 (PyVal.int 0) 60 =
        Except.ok (PyVal.float ⟨0, 100⟩) from by decide] at h4
    injection h4 with hv
    subst hv
    simp [List.lookup]
  · intro hm
    rw [dictGet_missing a _ _ hm]
    simp [List.lookup]
  · intro p hp
    fin_cases hp <;> (intro hm; simp [List.lookup, dictGet, hm])
  · intro hm
    rw [dictGet_missing a _ _ hm] at g1
    have hv : Except.ok (PyVal.str "") = Except.ok date := g1
    injection hv with hv
    subst hv
    constructor
    · simp [List.lookup]
    · rw [dictGet_missing a _ _ hm]
      simp [List.lookup]
  · intro hm
    rw [dictGet_missing a _ _ hm]
    simp [List.lookup]
  · intro hm
    rw [dictGet_missing a _ _ hm,
      show divRound2 (PyVal.int 0) 1000 =
        Except.ok (PyVal.float ⟨0, 100⟩) from by decide] at g2
    injection g2 with hv
    subst hv
    simp [List.lookup]
  · intro hm
    rw [dictGet_missing a _ _ hm,
      show divRound2 (PyVal.int 0) 60 =
        Except.ok (PyVal.float ⟨0, 100⟩) from by decide] at g3
    injection g3 with hv
    subst hv
    simp [List.lookup]

theorem normalize_fixed_shape_witness :
    extract_activity_data_compact [] = Except.ok compactDefaultRow
    ∧ extract_activity_data_extended [] = Except.ok extendedDefaultRow
    ∧ compactDefaultRow.map Prod.fst = compactFieldNames
    ∧ extendedDefaultRow.map Prod.fst = extendedFieldNames
    ∧ List.lookup "calories" compactDefaultRow = Option.some PyVal.none := by
  have h := normalize_fixed_shape [] compactDefaultRow extendedDefaultRow
    (by decide) (by decide)
  exact ⟨by decide, by decide, h.1, h.2.1,
    h.2.2.1 "calories" (by decide) rfl⟩

/-- The compact row for a record with `average_speed = 5.0` and
`max_speed = 2.5` (m/s). -/
def speedRow5 : NormalizedRow :=
  [("id", PyVal.none), ("name", PyVal.none),
   ("distance", PyVal.float ⟨0, 100⟩), ("moving_time", PyVal.float ⟨0, 100⟩),
   ("elapsed_time", PyVal.none), ("total_elevation_gain", PyVal.none),
   ("start_date", PyVal.str ""), ("average_speed", PyVal.float ⟨1800, 100⟩),
   ("max_speed", PyVal.float ⟨900, 100⟩), ("average_temp", PyVal.none),
   ("elev_high", PyVal.none), ("elev_low", PyVal.none),
   ("calories", PyVal.none), ("pr_count", PyVal.none)]

/-- C6: in the compact fieldset, a nonzero raw `average_speed` or
`max_speed` float is multiplied by 3.6 exactly and rounded to two
decimal places (`round(v * 3.6, 2)`, modelled as
`round2 ⟨num * 36, den * 10⟩`), while a zero-or-absent raw value is
falsy, skips the guarded conversion, and is left as the raw falsy value
itself — never coerced to a rounded zero. -/
theorem speed_conversion (a : ActivityRecord) (row : NormalizedRow)
    (h : extract_activity_data_compact a = Except.ok row) :
    (∀ f : PyFloat, f.num ≠ 0 →
      dictGet a "average_speed" (PyVal.int 0) = PyVal.float f →
      List.lookup "average_speed" row =
        Option.some (PyVal.float (round2 ⟨f.num * 36, f.den * 10⟩)))
    ∧ (pyTruthy (dictGet a "average_speed" (PyVal.int 0)) = false →
      List.lookup "average_speed" row =
        Option.some (dictGet a "average_speed" (PyVal.int 0)))
    ∧ (∀ f : PyFloat, f.num ≠ 0 →
      dictGet a "max_speed" (PyVal.int 0) = PyVal.float f →
      List.lookup "max_speed" row =
        Option.some (PyVal.float (round2 ⟨f.num * 36, f.den * 10⟩)))
    ∧ (pyTruthy (dictGet a "max_speed" (PyVal.int 0)) = false →
      List.lookup "max_speed" row =
        Option.some (dictGet a "max_speed" (PyVal.int 0))) := by
  obtain ⟨avg, mx, dist, mov, h1, h2, h3, h4, hrow⟩ := extract_compact_inv a row h
  subst hrow
  refine ⟨?_, ?_, ?_, ?_⟩
  · intro f hf hd
    rw [hd, convertSpeed, if_pos (by simpa [pyTruthy] using hf)] at h1
    have hv : Except.ok (PyVal.float (round2 ⟨f.num * 36, f.den * 10⟩)) =
        Except.ok avg := h1
    injection hv with hv
    subst hv
    simp [List.lookup]
  · intro hf
    rw [convertSpeed, if_neg (by simp [hf])] at h1
    have hv : Except.ok (dictGet a "average_speed" (PyVal.int 0)) =
        Except.ok avg := h1
    injection hv with hv
    subst hv
    simp [List.lookup]
  · intro f hf hd
    rw [hd, convertSpeed, if_pos (by simpa [pyTruthy] using hf)] at h2
    have hv : Except.ok (PyVal.float (round2 ⟨f.num * 36, f.den * 10⟩)) =
        Except.ok mx := h2
    injection hv with hv
    subst hv
    simp [List.lookup]
  · intro hf
    rw [convertSpeed, if_neg (by simp [hf])] at h2
    have hv : Except.ok (dictGet a "max_speed" (PyVal.int 0)) =
        Except.ok mx := h2
    injection hv with hv
    subst hv
    simp [List.lookup]

theorem speed_conversion_witness :
    ((5 : Int) ≠ 0) ∧ ((25 : Int) ≠ 0)
    ∧ List.lookup "average_speed" speedRow5 =
        Option.some (PyVal.float ⟨1800, 100⟩)
    ∧ List.lookup "max_speed" speedRow5 =
        Option.some (PyVal.float ⟨900, 100⟩)
    ∧ fracVal ⟨1800, 100⟩ = 18 ∧ fracVal ⟨900, 100⟩ = 9 := by
  refine ⟨by decide, by decide, ?_, ?_, by norm_num [fracVal],
    by norm_num [fracVal]⟩
  · have h := (speed_conversion
      [("average_speed", PyVal.float ⟨5, 1⟩), ("max_speed", PyVal.float ⟨25, 10⟩)]
      speedRow5 (by decide)).1 ⟨5, 1⟩ (by decide) (by decide)
    rw [show round2 ⟨(5 : Int) * 36, (1 : Int) * 10⟩ = (⟨1800, 100⟩ : PyFloat)
      from by decide] at h
    exact h
  · have h := (speed_conversion
      [("average_speed", PyVal.float ⟨5, 1⟩), ("max_speed", PyVal.float ⟨25, 10⟩)]
      speedRow5 (by decide)).2.2.1 ⟨25, 10⟩ (by decide) (by decide)
    rw [show round2 ⟨(25 : Int) * 36, (10 : Int) * 10⟩ = (⟨900, 100⟩ : PyFloat)
      from by decide] at h
    exact h

/-- A character that forces quoting: delimiter, quote or line break. -/
def specialChar (c : Char) : Bool :=
  c = ',' || c = '"' || c = '\r' || c = '\n'

/-- QUOTE_MINIMAL: a field is quoted iff it contains a delimiter, quote
or line-break character. -/
def needsQuote (f : List Char) : Bool :=
  f.any specialChar

/-- Double each quote character (csv escaping inside quoted fields). -/
def escapeQuotes : List Char → List Char
  | [] => []
  | c :: cs =>
    if c = '"' then '"' :: '"' :: escapeQuotes cs else c :: escapeQuotes cs

/-- One rendered field under minimal quoting. -/
def renderField (f : List Char) : List Char :=
  if needsQuote f then '"' :: (escapeQuotes f ++ ['"']) else f

/-- Comma-joined rendered fields of one record. -/
def renderCells : List (List Char) → List Char
  | [] => []
  | [f] => renderField f
  | f :: fs => renderField f ++ ',' :: renderCells fs

/-- One CSV record with the `\r\n` terminator. CPython's writer quotes a
lone empty field (`[""]` renders as `""`) to keep it distinct from a
blank line. -/
def renderRecord (cells : List (List Char)) : List Char :=
  (if cells = [[]] then ['"', '"'] else renderCells cells) ++ ['\r', '\n']

/-- A whole CSV file: the concatenated rendered records. -/
def renderAll : List (List (List Char)) → List Char
  | [] => []
  | r :: rs => renderRecord r ++ renderAll rs

/-- Reader states: start of a field, inside an unquoted field, inside a
quoted field, just after a quote inside a quoted field, and just after a
`\r` (the row was emitted; one following `\n` is consumed silently). -/
inductive CsvMode where
  | startF
  | unq
  | quo
  | quoQ
  | afterCR
deriving DecidableEq

/-- Reader state: mode, the field and row being accumulated, and the
finished rows. -/
structure CsvState where
  mode : CsvMode
  field : List Char
  row : List (List Char)
  rows : List (List (List Char))
deriving DecidableEq

def csvInit : CsvState := ⟨CsvMode.startF, [], [], []⟩

/-- Transition from field-start on one character. -/
def csvStartF (row : List (List Char)) (rows : List (List (List Char)))
    (c : Char) : CsvState :=
  if c = '"' then ⟨CsvMode.quo, [], row, rows⟩
  else if c = ',' then ⟨CsvMode.startF, [], row ++ [[]], rows⟩
  else if c = '\r' then ⟨CsvMode.afterCR, [], [], rows ++ [row ++ [[]]]⟩
  else if c = '\n' then ⟨CsvMode.startF, [], [], rows ++ [row ++ [[]]]⟩
  else ⟨CsvMode.unq, [c], row, rows⟩

/-- One step of the CSV reader state machine. -/
def csvStep (s : CsvState) (c : Char) : CsvState :=
  match s.mode with
  | CsvMode.startF => csvStartF s.row s.rows c
  | CsvMode.unq =>
    if c = ',' then ⟨CsvMode.startF, [], s.row ++ [s.field], s.rows⟩
    else if c = '\r' then
      ⟨CsvMode.afterCR, [], [], s.rows ++ [s.row ++ [s.field]]⟩
    else if c = '\n' then
      ⟨CsvMode.startF, [], [], s.rows ++ [s.row ++ [s.field]]⟩
    else ⟨CsvMode.unq, s.field ++ [c], s.row, s.rows⟩
  | CsvMode.quo =>
    if c = '"' then ⟨CsvMode.quoQ, s.field, s.row, s.rows⟩
    else ⟨CsvMode.quo, s.field ++ [c], s.row, s.rows⟩
  | CsvMode.quoQ =>
    if c = '"' then ⟨CsvMode.quo, s.field ++ ['"'], s.row, s.rows⟩
    else if c = ',' then ⟨CsvMode.startF, [], s.row ++ [s.field], s.rows⟩
    else if c = '\r' then
      ⟨CsvMode.afterCR, [], [], s.rows ++ [s.row ++ [s.field]]⟩
    else if c = '\n' then
      ⟨CsvMode.startF, [], [], s.rows ++ [s.row ++ [s.field]]⟩
    else ⟨CsvMode.unq, s.field ++ [c], s.row, s.rows⟩
  | CsvMode.afterCR =>
    if c = '\n' then ⟨CsvMode.startF, [], [], s.rows⟩
    else csvStartF [] s.rows c

/-- Flush the reader state at end of input. -/
def csvFinish (s : CsvState) : List (List (List Char)) :=
  match s.mode with
  | CsvMode.afterCR => s.rows
  | CsvMode.startF =>
    if s.row = [] then s.rows else s.rows ++ [s.row ++ [s.field]]
  | _ => s.rows ++ [s.row ++ [s.field]]

/-- Parse a CSV text into its records (RFC-4180-style; quoted fields may
contain commas, quotes and line breaks). -/
def parseCsv (content : List Char) : List (List (List Char)) :=
  csvFinish (content.foldl csvStep csvInit)

def natToCharsAux : Nat → Nat → List Char
  | 0, _ => []
  | fuel + 1, n =>
    if n < 10 then [Char.ofNat (48 + n)]
    else natToCharsAux fuel (n / 10) ++ [Char.ofNat (48 + n % 10)]

/-- Decimal digits of a natural number. -/
def natToChars (n : Nat) : List Char := natToCharsAux (n + 1) n

/-- Python `str` of an int. -/
def intToChars (i : Int) : List Char :=
  if i < 0 then '-' :: natToChars i.natAbs else natToChars i.natAbs

/-- Python `str` of a float, exact over two-decimal values: integer
part, dot, fractional digits with the trailing-zero convention
(`18.0`, `10.2`, `10.05`, `0.0`). Fractions outside the exact
two-decimal range (never produced by the modelled pipeline's rounded
outputs) fall back to a num/den rendering. -/
def pyFloatRepr (f : PyFloat) : List Char :=
  if 0 < f.den ∧ f.num * 100 % f.den = 0 then
    (if f.num < 0 then ['-'] else []) ++
    natToChars (f.num.natAbs / f.den.natAbs) ++ ['.'] ++
    (let hund := f.num.natAbs % f.den.natAbs * 100 / f.den.natAbs
     if hund = 0 then ['0']
     else if hund % 10 = 0 then natToChars (hund / 10)
     else if hund < 10 then '0' :: natToChars hund
     else natToChars hund)
  else intToChars f.num ++ '/' :: intToChars f.den

/-- The string `csv.DictWriter` writes for one cell: `None` becomes the
empty string, booleans `True`/`False`, ints and floats via `str`. -/
def csvCell : PyVal → List Char
  | PyVal.none => []
  | PyVal.int n => intToChars n
  | PyVal.float f => pyFloatRepr f
  | PyVal.str s => s.data
  | PyVal.bool b => if b then "True".data else "False".data

/-- The cells of one data row, in the row's own field order. -/
def rowCells (r : NormalizedRow) : List (List Char) :=
  r.map (fun p => csvCell p.2)

/-- The CSV text `export_to_csv` writes: a header from the given field
order, then one record per row. -/
def csvContent (fieldnames : List String) (rows : List NormalizedRow) :
    List Char :=
  renderAll ((fieldnames.map String.data) :: rows.map rowCells)

/-- The writer loop's row extraction, in order: the first failure
propagates (only `IOError` is caught by `export_to_csv`, not
`TypeError`). -/
def extractRows : List ActivityRecord → Except PyErr (List NormalizedRow)
  | [] => Except.ok []
  | a :: rest =>
    match extract_activity_data_compact a with
    | Except.error e => Except.error e
    | Except.ok r =>
      match extractRows rest with
      | Except.error e => Except.error e
      | Except.ok rs => Except.ok (r :: rs)

/-- `StravaExtractor.export_to_csv`: empty input returns `False` before
touching the file; otherwise fieldnames come from the first activity's
extracted row, the destination is opened (an unopenable destination is
an `IOError`, caught and returned as `False` with the file untouched),
and every activity is extracted and written in order. A `TypeError`
from extraction propagates (only `IOError` is caught). The `Option`
component models the written content; `none` means the destination was
not touched. -/
def export_to_csv (acts : List ActivityRecord) (writable : Bool) :
    Except PyErr (Bool × Option (List Char)) :=
  match acts with
  | [] => Except.ok (false, Option.none)
  | a :: _ =>
    match extract_activity_data_compact a with
    | Except.error e => Except.error e
    | Except.ok row0 =>
      if writable then
        match extractRows acts with
        | Except.error e => Except.error e
        | Except.ok rows =>
            Except.ok (true, Option.some (csvContent (row0.map Prod.fst) rows))
      else Except.ok (false, Option.none)

/-- C8: exporting an empty sequence fails by design and leaves the
destination untouched: `export_to_csv` returns `False` before opening,
creating or truncating the file — for writable and unwritable
destinations alike — so no content is ever written for `[]`. -/
theorem export_empty_fails_untouched (writable : Bool) :
    export_to_csv [] writable = Except.ok (false, Option.none) := rfl

example : parseCsv (renderAll [[['a'], []], [['x', ',', 'y'], ['"']]]) =
    [[['a'], []], [['x', ',', 'y'], ['"']]] := by decide

example : parseCsv (renderAll [[[]], [['a', '\n', 'b'], []]]) =
    [[[]], [['a', '\n', 'b'], []]] := by decide

theorem csvStep_quo_quote (f : List Char) (row : List (List Char))
    (rows : List (List (List Char))) :
    csvStep ⟨CsvMode.quo, f, row, rows⟩ '"' = ⟨CsvMode.quoQ, f, row, rows⟩ := rfl

theorem csvStep_quo_other (f : List Char) (row : List (List Char))
    (rows : List (List (List Char))) (c : Char) (hc : c ≠ '"') :
    csvStep ⟨CsvMode.quo, f, row, rows⟩ c = ⟨CsvMode.quo, f ++ [c], row, rows⟩ := by
  simp only [csvStep]
  rw [if_neg hc]

theorem csvStep_unq_normal (f : List Char) (row : List (List Char))
    (rows : List (List (List Char))) (c : Char)
    (h1 : c ≠ ',') (h2 : c ≠ '\r') (h3 : c ≠ '\n') :
    csvStep ⟨CsvMode.unq, f, row, rows⟩ c = ⟨CsvMode.unq, f ++ [c], row, rows⟩ := by
  simp only [csvStep]
  rw [if_neg h1, if_neg h2, if_neg h3]

theorem csvStartF_normal (row : List (List Char))
    (rows : List (List (List Char))) (c : Char) (hc : specialChar c = false) :
    csvStartF row rows c = ⟨CsvMode.unq, [c], row, rows⟩ := by
  simp only [specialChar, Bool.or_eq_false_iff, decide_eq_false_iff_not] at hc
  obtain ⟨⟨⟨h1, h2⟩, h3⟩, h4⟩ := hc
  rw [csvStartF, if_neg h2, if_neg h1, if_neg h3, if_neg h4]

theorem foldl_escapeQuotes (cs : List Char) : ∀ (f : List Char)
    (row : List (List Char)) (rows : List (List (List Char))),
    List.foldl csvStep ⟨CsvMode.quo, f, row, rows⟩ (escapeQuotes cs) =
      ⟨CsvMode.quo, f ++ cs, row, rows⟩ := by
  induction cs with
  | nil =>
    intro f row rows
    simp [escapeQuotes]
  | cons c cs ih =>
    intro f row rows
    by_cases hc : c = '"'
    · subst hc
      rw [escapeQuotes, if_pos rfl, List.foldl_cons, List.foldl_cons,
        csvStep_quo_quote]
      rw [show csvStep ⟨CsvMode.quoQ, f, row, rows⟩ '"' =
        ⟨CsvMode.quo, f ++ ['"'], row, rows⟩ from rfl, ih]
      simp
    · rw [escapeQuotes, if_neg hc, List.foldl_cons, csvStep_quo_other f row rows c hc,
        ih]
      simp

theorem foldl_unq_normal (cs : List Char) : ∀ (f : List Char)
    (row : List (List Char)) (rows : List (List (List Char))),
    (∀ c ∈ cs, specialChar c = false) →
    List.foldl csvStep ⟨CsvMode.unq, f, row, rows⟩ cs =
      ⟨CsvMode.unq, f ++ cs, row, rows⟩ := by
  induction cs with
  | nil =>
    intro f row rows _
    simp
  | cons c cs ih =>
    intro f row rows hs
    have hc := hs c (List.mem_cons_self c cs)
    simp only [specialChar, Bool.or_eq_false_iff, decide_eq_false_iff_not] at hc
    obtain ⟨⟨⟨h1, _⟩, h3⟩, h4⟩ := hc
    rw [List.foldl_cons, csvStep_unq_normal f row rows c h1 h3 h4,
      ih (f ++ [c]) row rows (fun d hd => hs d (List.mem_cons_of_mem c hd))]
    simp

/-- The machine state after consuming one rendered field from
field-start: quoted fields end just after their closing quote, an empty
unquoted field consumes nothing, a nonempty unquoted field sits in
unquoted mode. -/
def afterFieldState (f : List Char) (row : List (List Char))
    (rows : List (List (List Char))) : CsvState :=
  if needsQuote f then ⟨CsvMode.quoQ, f, row, rows⟩
  else if f = [] then ⟨CsvMode.startF, [], row, rows⟩
  else ⟨CsvMode.unq, f, row, rows⟩

theorem foldl_renderField (f : List Char) (row : List (List Char))
    (rows : List (List (List Char))) :
    List.foldl csvStep ⟨CsvMode.startF, [], row, rows⟩ (renderField f) =
      afterFieldState f row rows := by
  by_cases hq : needsQuote f
  · rw [renderField, if_pos hq, afterFieldState, if_pos hq, List.foldl_cons]
    rw [show csvStep ⟨CsvMode.startF, [], row, rows⟩ '"' =
      ⟨CsvMode.quo, [], row, rows⟩ from rfl]
    rw [List.foldl_append, foldl_escapeQuotes]
    simp [csvStep_quo_quote]
  · rw [renderField, if_neg hq, afterFieldState, if_neg hq]
    cases f with
    | nil => simp
    | cons c cs =>
      have hall : ∀ d ∈ c :: cs, specialChar d = false := by
        intro d hd
        have := hq
        rw [needsQuote] at this
        exact Bool.eq_false_iff.mpr (fun hT => this (List.any_eq_true.mpr ⟨d, hd, hT⟩))
      rw [if_neg (by simp), List.foldl_cons]
      rw [show csvStep ⟨CsvMode.startF, [], row, rows⟩ c =
        ⟨CsvMode.unq, [c], row, rows⟩ from
        csvStartF_normal row rows c (hall c (List.mem_cons_self c cs))]
      rw [foldl_unq_normal cs [c] row rows
        (fun d hd => hall d (List.mem_cons_of_mem c hd))]
      rfl

theorem csvStep_afterField_sep (f : List Char) (row : List (List Char))
    (rows : List (List (List Char))) :
    csvStep (afterFieldState f row rows) ',' =
      ⟨CsvMode.startF, [], row ++ [f], rows⟩ := by
  rw [afterFieldState]
  split_ifs with h1 h2
  · rfl
  · subst h2
    rfl
  · rfl

theorem foldl_afterField_crlf (f : List Char) (row : List (List Char))
    (rows : List (List (List Char))) (rest : List Char) :
    List.foldl csvStep (afterFieldState f row rows) ('\r' :: '\n' :: rest) =
      List.foldl csvStep ⟨CsvMode.startF, [], [], rows ++ [row ++ [f]]⟩ rest := by
  rw [afterFieldState]
  split_ifs with h1 h2
  · simp only [List.foldl_cons]
    rw [show csvStep ⟨CsvMode.quoQ, f, row, rows⟩ '\r' =
      ⟨CsvMode.afterCR, [], [], rows ++ [row ++ [f]]⟩ from rfl,
      show csvStep ⟨CsvMode.afterCR, [], [], rows ++ [row ++ [f]]⟩ '\n' =
      ⟨CsvMode.startF, [], [], rows ++ [row ++ [f]]⟩ from rfl]
  · subst h2
    simp only [List.foldl_cons]
    rw [show csvStep ⟨CsvMode.startF, [], row, rows⟩ '\r' =
      ⟨CsvMode.afterCR, [], [], rows ++ [row ++ [[]]]⟩ from rfl,
      show csvStep ⟨CsvMode.afterCR, [], [], rows ++ [row ++ [[]]]⟩ '\n' =
      ⟨CsvMode.startF, [], [], rows ++ [row ++ [[]]]⟩ from rfl]
  · simp only [List.foldl_cons]
    rw [show csvStep ⟨CsvMode.unq, f, row, rows⟩ '\r' =
      ⟨CsvMode.afterCR, [], [], rows ++ [row ++ [f]]⟩ from rfl,
      show csvStep ⟨CsvMode.afterCR, [], [], rows ++ [row ++ [f]]⟩ '\n' =
      ⟨CsvMode.startF, [], [], rows ++ [row ++ [f]]⟩ from rfl]

theorem renderCells_cons (f : List Char) (fs : List (List Char)) (h : fs ≠ []) :
    renderCells (f :: fs) = renderField f ++ ',' :: renderCells fs := by
  cases fs with
  | nil => exact absurd rfl h
  | cons g gs => rfl

theorem foldl_renderCells (pre : List (List Char)) : ∀ (lastF : List Char)
    (row : List (List Char)) (rows : List (List (List Char))),
    List.foldl csvStep ⟨CsvMode.startF, [], row, rows⟩
      (renderCells (pre ++ [lastF])) =
      afterFieldState lastF (row ++ pre) rows := by
  induction pre with
  | nil =>
    intro lastF row rows
    simp only [List.nil_append]
    rw [show renderCells [lastF] = renderField lastF from rfl, foldl_renderField]
    simp
  | cons f pre ih =>
    intro lastF row rows
    rw [List.cons_append, renderCells_cons f (pre ++ [lastF]) (by simp),
      List.foldl_append, foldl_renderField, List.foldl_cons,
      csvStep_afterField_sep, ih lastF (row ++ [f]) rows]
    simp

theorem foldl_renderRecord (cells : List (List Char)) (h : cells ≠ [])
    (rows : List (List (List Char))) (rest : List Char) :
    List.foldl csvStep ⟨CsvMode.startF, [], [], rows⟩
      (renderRecord cells ++ rest) =
      List.foldl csvStep ⟨CsvMode.startF, [], [], rows ++ [cells]⟩ rest := by
  by_cases hone : cells = [[]]
  · subst hone
    rw [renderRecord, if_pos rfl]
    simp only [List.cons_append, List.nil_append, List.foldl_cons]
    rw [show csvStep ⟨CsvMode.startF, [], [], rows⟩ '"' =
      ⟨CsvMode.quo, [], [], rows⟩ from rfl,
      show csvStep ⟨CsvMode.quo, [], [], rows⟩ '"' =
      ⟨CsvMode.quoQ, [], [], rows⟩ from rfl,
      show csvStep ⟨CsvMode.quoQ, [], [], rows⟩ '\r' =
      ⟨CsvMode.afterCR, [], [], rows ++ [[[]]]⟩ from rfl,
      show csvStep ⟨CsvMode.afterCR, [], [], rows ++ [[[]]]⟩ '\n' =
      ⟨CsvMode.startF, [], [], rows ++ [[[]]]⟩ from rfl]
  · obtain ⟨pre, lastF, hsplit⟩ := (List.eq_nil_or_concat cells).resolve_left h
    rw [List.concat_eq_append] at hsplit
    subst hsplit
    rw [renderRecord, if_neg hone, List.append_assoc]
    simp only [List.cons_append, List.nil_append]
    rw [List.foldl_append, foldl_renderCells pre lastF [] rows,
      foldl_afterField_crlf]
    simp

theorem foldl_renderAll (records : List (List (List Char)))
    (h : ∀ r ∈ records, r ≠ []) : ∀ (rows : List (List (List Char))),
    List.foldl csvStep ⟨CsvMode.startF, [], [], rows⟩ (renderAll records) =
      ⟨CsvMode.startF, [], [], rows ++ records⟩ := by
  induction records with
  | nil =>
    intro rows
    simp [renderAll]
  | cons r rs ih =>
    intro rows
    rw [renderAll, foldl_renderRecord r (h r (List.mem_cons_self r rs)) rows
      (renderAll rs),
      ih (fun x hx => h x (List.mem_cons_of_mem r hx)) (rows ++ [r])]
    simp

/-- A well-formed CSV write followed by a parse recovers exactly the
written records, for any records with at least one field each — whatever
the cell contents (commas, quotes and line breaks are quoted and
escaped). -/
theorem parseCsv_renderAll (records : List (List (List Char)))
    (h : ∀ r ∈ records, r ≠ []) :
    parseCsv (renderAll records) = records := by
  rw [parseCsv, csvInit, foldl_renderAll records h []]
  simp [csvFinish]

theorem extractRows_shape (acts : List ActivityRecord)
    (rows : List NormalizedRow) (h : extractRows acts = Except.ok rows) :
    ∀ r ∈ rows, r.map Prod.fst = compactFieldNames := by
  induction acts generalizing rows with
  | nil =>
    simp only [extractRows, Except.ok.injEq] at h
    subst h
    simp
  | cons a as ih =>
    rw [extractRows] at h
    cases ha : extract_activity_data_compact a with
    | error e => rw [ha] at h; exact absurd h (by simp)
    | ok r =>
      rw [ha] at h
      cases has : extractRows as with
      | error e => rw [has] at h; exact absurd h (by simp)
      | ok rs =>
        rw [has] at h
        simp only [Except.ok.injEq] at h
        subst h
        intro x hx
        rcases List.mem_cons.mp hx with hx | hx
        · subst hx
          obtain ⟨_, _, _, _, _, _, _, _, hrow⟩ := extract_compact_inv a x ha
          subst hrow
          rfl
        · exact ih rs has x hx

/-- C9: exporting a non-empty activity sequence writes a CSV whose
header is the field order of the first extracted row, and re-parsing the
written text recovers exactly one header record plus one record per
input row whose cells are precisely the string-formatted field values of
that row (quoting makes this exact even for values containing commas,
quotes or line breaks) — so the parse has `rows + 1` records and every
field value round-trips up to string formatting. -/
theorem export_roundtrip (a : ActivityRecord) (acts : List ActivityRecord)
    (rows : List NormalizedRow)
    (h : extractRows (a :: acts) = Except.ok rows) :
    ∃ row0 rest content,
      rows = row0 :: rest
      ∧ export_to_csv (a :: acts) true = Except.ok (true, Option.some content)
      ∧ content = csvContent (row0.map Prod.fst) rows
      ∧ parseCsv content =
          (row0.map Prod.fst).map String.data :: rows.map rowCells
      ∧ (parseCsv content).length = rows.length + 1 := by
  have hshape := extractRows_shape (a :: acts) rows h
  rw [extractRows] at h
  cases ha : extract_activity_data_compact a with
  | error e => rw [ha] at h; exact absurd h (by simp)
  | ok row0 =>
    rw [ha] at h
    cases has : extractRows acts with
    | error e => rw [has] at h; exact absurd h (by simp)
    | ok rest =>
      rw [has] at h
      simp only [Except.ok.injEq] at h
      subst h
      have hall : extractRows (a :: acts) = Except.ok (row0 :: rest) := by
        rw [extractRows, ha, has]
      have hexp : export_to_csv (a :: acts) true =
          Except.ok (true, Option.some
            (csvContent (row0.map Prod.fst) (row0 :: rest))) := by
        simp only [export_to_csv, ha, hall, if_pos]
      have hne : ∀ r ∈ ((row0.map Prod.fst).map String.data ::
          (row0 :: rest).map rowCells), r ≠ [] := by
        intro r hr
        rcases List.mem_cons.mp hr with hr | hr
        · subst hr
          rw [hshape row0 (List.mem_cons_self row0 rest)]
          simp [compactFieldNames]
        · obtain ⟨x, hx, hrx⟩ := List.mem_map.mp hr
          subst hrx
          have hxk := hshape x hx
          rw [rowCells]
          intro hcon
          rw [List.map_eq_nil_iff] at hcon
          subst hcon
          simp [compactFieldNames] at hxk
      have hparse : parseCsv (csvContent (row0.map Prod.fst) (row0 :: rest)) =
          (row0.map Prod.fst).map String.data :: (row0 :: rest).map rowCells := by
        rw [csvContent, parseCsv_renderAll _ hne]
      refine ⟨row0, rest, _, rfl, hexp, rfl, hparse, ?_⟩
      rw [hparse]
      simp

/-- A record with an id and a name containing a comma. -/
def csvAct1 : ActivityRecord :=
  [("name", PyVal.str "morning, run"), ("id", PyVal.int 7)]

/-- The compact row extracted from `csvAct1`. -/
def csvRow1 : NormalizedRow :=
  [("id", PyVal.int 7), ("name", PyVal.str "morning, run"),
   ("distance", PyVal.float ⟨0, 100⟩), ("moving_time", PyVal.float ⟨0, 100⟩),
   ("elapsed_time", PyVal.none), ("total_elevation_gain", PyVal.none),
   ("start_date", PyVal.str ""), ("average_speed", PyVal.int 0),
   ("max_speed", PyVal.int 0), ("average_temp", PyVal.none),
   ("elev_high", PyVal.none), ("elev_low", PyVal.none),
   ("calories", PyVal.none), ("pr_count", PyVal.none)]

theorem export_roundtrip_witness :
    extractRows [csvAct1, []] = Except.ok [csvRow1, compactDefaultRow]
    ∧ ∃ row0 rest content,
      ([csvRow1, compactDefaultRow] : List NormalizedRow) = row0 :: rest
      ∧ export_to_csv [csvAct1, []] true = Except.ok (true, Option.some content)
      ∧ content = csvContent (row0.map Prod.fst) [csvRow1, compactDefaultRow]
      ∧ parseCsv content = (row0.map Prod.fst).map String.data ::
          ([csvRow1, compactDefaultRow] : List NormalizedRow).map rowCells
      ∧ (parseCsv content).length =
          ([csvRow1, compactDefaultRow] : List NormalizedRow).length + 1 :=
  ⟨by decide, export_roundtrip csvAct1 [[]] [csvRow1, compactDefaultRow] (by decide)⟩
